import Mathlib

/-!
Verification of the FS Source face-detection visibility switcher.

The development shallowly embeds the core of `src/fs_source.py`
(`FaceDetectionSwitcher`) and `src/fs_source_daemon.py`
(`FaceDetectionDaemon`): the remote OBS state (scenes and scene items),
the cross-scene visibility synchronisation
(`set_source_visibility_global` in both variants), the presence edge
detection of the poll loop, and the daemon's active-mode lifecycle.

Remote calls are modelled over an explicit `ObsState`; a scene whose
item-list fetch (`GetSceneItemList`) raises is marked with
`fetchFails`.  `set_source_visibility_global` is embedded as a pure
function returning the mutated remote state, the number of modified
items, the trace of `SetSceneItemEnabled` calls issued, and the boolean
the Python function returns.
-/

namespace FsSource

/-- One placement of a source in a scene (`GetSceneItemList` row:
`sourceName`, `sceneItemId`, plus its current enabled flag). -/
structure SceneItem where
  sourceName : String
  sceneItemId : Nat
  enabled : Bool
deriving Repr, DecidableEq

/-- A scene of the remote mixer.  `fetchFails` models
`GetSceneItemList(sceneName)` raising an exception for this scene. -/
structure Scene where
  sceneName : String
  fetchFails : Bool
  items : List SceneItem
deriving Repr, DecidableEq

/-- The remote OBS state: the list returned by `GetSceneList`. -/
structure ObsState where
  scenes : List Scene
deriving Repr, DecidableEq

/-- A `SetSceneItemEnabled(sceneName, sceneItemId, sceneItemEnabled)`
call issued to the remote. -/
structure EnableCall where
  sceneName : String
  sceneItemId : Nat
  enabled : Bool
deriving Repr, DecidableEq

/-- `GetSceneItemList(nm)`: items of the first scene named `nm`, or
`none` when the scene is missing or its fetch raises. -/
def fetchItems (st : ObsState) (nm : String) : Option (List SceneItem) :=
  match st.scenes.find? (fun sc => sc.sceneName = nm) with
  | none => none
  | some sc => if sc.fetchFails then none else some sc.items

/-- Update of one item by scene-scoped id. -/
def updItem (i : Nat) (v : Bool) (it : SceneItem) : SceneItem :=
  if it.sceneItemId = i then { it with enabled := v } else it

/-- Update of one scene by name and item id. -/
def updSceneById (nm : String) (i : Nat) (v : Bool) (sc : Scene) : Scene :=
  if sc.sceneName = nm then { sc with items := sc.items.map (updItem i v) } else sc

/-- Effect of `SetSceneItemEnabled(nm, i, v)` on the remote state. -/
def setItemEnabled (st : ObsState) (nm : String) (i : Nat) (v : Bool) : ObsState :=
  ⟨st.scenes.map (updSceneById nm i v)⟩

/-- Output of one stretch of the synchronisation loop: resulting remote
state, `scenes_modified` count, and the issued set-enabled calls. -/
structure LoopOut where
  state : ObsState
  modified : Nat
  calls : List EnableCall
deriving Repr, DecidableEq

/-- The inner item loop shared by both variants (`fs_source.py`
lines 128–136, `fs_source_daemon.py` lines 174–182): iterate over the
fetched snapshot `its` of scene `nm`, and for every item whose source
name equals `src` issue a set-enabled call with `v` and count it. -/
def applyItems (nm src : String) (v : Bool) : List SceneItem → ObsState → LoopOut
  | [], st => ⟨st, 0, []⟩
  | it :: rest, st =>
    if it.sourceName = src then
      let r := applyItems nm src v rest (setItemEnabled st nm it.sceneItemId v)
      ⟨r.state, r.modified + 1, ⟨nm, it.sceneItemId, v⟩ :: r.calls⟩
    else applyItems nm src v rest st

/-- One scene of the `FaceDetectionSwitcher` loop: the per-scene
`try/except` makes a failed item fetch a no-op (`continue`). -/
def processScene (src : String) (v : Bool) (nm : String) (st : ObsState) : LoopOut :=
  match fetchItems st nm with
  | none => ⟨st, 0, []⟩
  | some its => applyItems nm src v its st

/-- The scene loop of `FaceDetectionSwitcher.set_source_visibility_global`:
skip scenes in `exclude_scenes`, skip scenes whose fetch fails,
accumulate counts and calls. -/
def swLoop (src : String) (v : Bool) (excl : List String) :
    List String → ObsState → LoopOut
  | [], st => ⟨st, 0, []⟩
  | nm :: rest, st =>
    if nm ∈ excl then swLoop src v excl rest st
    else
      let r := processScene src v nm st
      let r2 := swLoop src v excl rest r.state
      ⟨r2.state, r.modified + r2.modified, r.calls ++ r2.calls⟩

/-- Result of a `set_source_visibility_global` call in the
`fs_source.py` variant: `ok` is the boolean the Python function
returns; `warnedNotFound` records the "not found in any scenes"
warning log. -/
structure SyncResult where
  ok : Bool
  state : ObsState
  modified : Nat
  calls : List EnableCall
  warnedNotFound : Bool
deriving Repr, DecidableEq

/-- `FaceDetectionSwitcher.set_source_visibility_global` (fs_source.py
lines 97–151).  `connected` models `self.obs_ws` being set;
`exclude_scenes = None` defaults to the empty list. -/
def set_source_visibility_global (connected : Bool) (st : ObsState)
    (source_name : String) (visible : Bool)
    (exclude_scenes : Option (List String)) : SyncResult :=
  if connected then
    let excl := exclude_scenes.getD []
    if source_name = "" then ⟨false, st, 0, [], false⟩
    else
      let r := swLoop source_name visible excl (st.scenes.map (fun sc => sc.sceneName)) st
      ⟨decide (0 < r.modified), r.state, r.modified, r.calls, decide (r.modified = 0)⟩
  else ⟨false, st, 0, [], false⟩

/-- Python truthiness test `if exclude_scene and scene_name == exclude_scene`
of the daemon variant (a `None` or empty exclusion never matches). -/
def daemonExcluded (excl : Option String) (nm : String) : Bool :=
  match excl with
  | none => false
  | some e => decide (¬ e = "" ∧ nm = e)

/-- Output of the daemon's scene loop; `aborted` records an exception
escaping to the outer handler (the daemon has no per-scene `try`). -/
structure DLoopOut where
  state : ObsState
  modified : Nat
  calls : List EnableCall
  aborted : Bool
deriving Repr, DecidableEq

/-- The scene loop of `FaceDetectionDaemon.set_source_visibility_global`
(fs_source_daemon.py lines 163–182): no per-scene `try/except`, so a
failed item fetch aborts the remaining loop. -/
def daemonLoop (src : String) (v : Bool) (excl : Option String) :
    List String → ObsState → DLoopOut
  | [], st => ⟨st, 0, [], false⟩
  | nm :: rest, st =>
    if daemonExcluded excl nm then daemonLoop src v excl rest st
    else
      match fetchItems st nm with
      | none => ⟨st, 0, [], true⟩
      | some its =>
        let r := applyItems nm src v its st
        let r2 := daemonLoop src v excl rest r.state
        ⟨r2.state, r.modified + r2.modified, r.calls ++ r2.calls, r2.aborted⟩

/-- Result of the daemon's `set_source_visibility_global`; the daemon
logs the zero-found case at debug level, so no warning flag. -/
structure DSyncResult where
  ok : Bool
  state : ObsState
  modified : Nat
  calls : List EnableCall
deriving Repr, DecidableEq

/-- `FaceDetectionDaemon.set_source_visibility_global`
(fs_source_daemon.py lines 147–194).  An abort (exception reaching the
outer handler) returns `False`, keeping whatever mutations already
happened. -/
def set_source_visibility_globalD (connected : Bool) (st : ObsState)
    (source_name : String) (visible : Bool)
    (exclude_scene : Option String) : DSyncResult :=
  if connected then
    if source_name = "" then ⟨false, st, 0, []⟩
    else
      let r := daemonLoop source_name visible exclude_scene
        (st.scenes.map (fun sc => sc.sceneName)) st
      if r.aborted then ⟨false, r.state, r.modified, r.calls⟩
      else ⟨decide (0 < r.modified), r.state, r.modified, r.calls⟩
  else ⟨false, st, 0, []⟩

/-- Configuration slice used by the daemon's active mode.  An empty
string models an unset (`None` or `""`, both Python-falsy) target name;
`detection_scene` is passed verbatim as the exclusion argument. -/
structure DaemonConfig where
  show_source : String
  hide_source : String
  detection_scene : Option String
deriving Repr, DecidableEq

/-- One invocation of `set_source_visibility_global` by the daemon's
lifecycle code (target, desired visibility, exclusion argument). -/
structure SyncCall where
  sourceName : String
  visible : Bool
  excludeScene : Option String
deriving Repr, DecidableEq

/-- The synchronisation invocations of the daemon's transition block
(fs_source_daemon.py lines 273–288): on a rising edge show the
show-target everywhere and hide the hide-target everywhere; on a
falling edge hide the show-target excluding the detection scene and
show the hide-target everywhere.  An unset target is skipped. -/
def transitionCalls (cfg : DaemonConfig) (detected : Bool) : List SyncCall :=
  if detected then
    (if cfg.show_source = "" then [] else [⟨cfg.show_source, true, none⟩]) ++
    (if cfg.hide_source = "" then [] else [⟨cfg.hide_source, false, none⟩])
  else
    (if cfg.show_source = "" then [] else [⟨cfg.show_source, false, cfg.detection_scene⟩]) ++
    (if cfg.hide_source = "" then [] else [⟨cfg.hide_source, true, none⟩])

/-- One frame of the daemon's poll loop (fs_source_daemon.py
lines 266–288): given the stored `face_detected` and the detector's
result, return the new stored state, the emitted transition event (the
new state, if any), and the synchronisation invocations made. -/
def pollStep (cfg : DaemonConfig) (prev cur : Bool) :
    Bool × Option Bool × List SyncCall :=
  if cur = prev then (prev, none, [])
  else (cur, some cur, transitionCalls cfg cur)

/-- Resulting states of the transition events emitted while feeding a
sequence of detector outputs through the poll loop. -/
def pollEvents (cfg : DaemonConfig) (prev : Bool) : List Bool → List Bool
  | [] => []
  | c :: rest =>
    let s := pollStep cfg prev c
    match s.2.1 with
    | none => pollEvents cfg s.1 rest
    | some e => e :: pollEvents cfg s.1 rest

/-- Configuration slice of `FaceDetectionSwitcher.run`; `hide_source`
is read from configuration there but never acted on. -/
structure SwitcherConfig where
  show_source : String
  hide_source : String
  detection_scene : String
deriving Repr, DecidableEq

/-- One invocation of the switcher's `set_source_visibility_global`
(whose exclusion argument is an optional list of scene names). -/
structure SwSyncCall where
  sourceName : String
  visible : Bool
  excludeScenes : Option (List String)
deriving Repr, DecidableEq

/-- Exclusion list built by `FaceDetectionSwitcher.run` (fs_source.py
lines 174–176): the detection scene when configured, else empty. -/
def swExcludeScenes (cfg : SwitcherConfig) : List String :=
  if cfg.detection_scene = "" then [] else [cfg.detection_scene]

/-- The synchronisation invocations of `FaceDetectionSwitcher.run`'s
transition block (fs_source.py lines 207–216): only the show-target is
ever toggled; the hide-target is not used by this loop. -/
def swTransitionCalls (cfg : SwitcherConfig) (detected : Bool) : List SwSyncCall :=
  if detected then
    if cfg.show_source = "" then [] else [⟨cfg.show_source, true, none⟩]
  else
    if cfg.show_source = "" then []
    else [⟨cfg.show_source, false, some (swExcludeScenes cfg)⟩]

/-- One frame of the switcher's loop (fs_source.py lines 199–216). -/
def swPollStep (cfg : SwitcherConfig) (prev cur : Bool) :
    Bool × Option Bool × List SwSyncCall :=
  if cur = prev then (prev, none, [])
  else (cur, some cur, swTransitionCalls cfg cur)

/-- One iteration's worth of environment input to the daemon's active
mode: the liveness probe failing, the frame capture failing, or a
captured frame with the detector's boolean result. -/
inductive CycleInput where
  | obsDown
  | frameFail
  | frame (detected : Bool)
deriving Repr, DecidableEq

/-- How an active-mode session ended: liveness probe failure (returns
`True` to the daemon loop), the consecutive-error ceiling (returns
`False`), or the input script running out with the loop still going. -/
inductive ActiveExit where
  | obsLost
  | tooManyErrors
  | scriptEnd
deriving Repr, DecidableEq

/-- The reset-to-default pass of the liveness-failure exit
(fs_source_daemon.py lines 242–245): hide the show-target everywhere,
show the hide-target everywhere, each skipped when unset. -/
def resetCalls (cfg : DaemonConfig) : List SyncCall :=
  (if cfg.show_source = "" then [] else [⟨cfg.show_source, false, none⟩]) ++
  (if cfg.hide_source = "" then [] else [⟨cfg.hide_source, true, none⟩])

/-- Outcome of an active-mode session: how it exited, the stored
`face_detected` afterwards, all synchronisation invocations made, and
the invocations made by the exiting iteration itself. -/
structure ActiveResult where
  exit : ActiveExit
  face : Bool
  calls : List SyncCall
  exitCalls : List SyncCall
deriving Repr, DecidableEq

/-- `FaceDetectionDaemon.active_mode` (fs_source_daemon.py
lines 214–307) driven by a finite input script, starting from stored
state `face` and `consecutive_errors = errs`
(`max_consecutive_errors = 5`).  The liveness-failure branch performs
the reset pass and sets `face_detected = False`; the error-ceiling
branch returns `False` with no further action. -/
def activeLoop (cfg : DaemonConfig) : List CycleInput → Bool → Nat → ActiveResult
  | [], face, _ => ⟨.scriptEnd, face, [], []⟩
  | .obsDown :: _, _, _ => ⟨.obsLost, false, resetCalls cfg, resetCalls cfg⟩
  | .frameFail :: rest, face, errs =>
    if 5 ≤ errs + 1 then ⟨.tooManyErrors, face, [], []⟩
    else activeLoop cfg rest face (errs + 1)
  | .frame d :: rest, face, _ =>
    let s := pollStep cfg face d
    let r := activeLoop cfg rest s.1 0
    ⟨r.exit, r.face, s.2.2 ++ r.calls, r.exitCalls⟩

/-- An active-mode session as entered from `run` (fresh
`consecutive_errors = 0`; the stored `face_detected` is whatever the
object field holds). -/
def active_mode (cfg : DaemonConfig) (face : Bool) (script : List CycleInput) :
    ActiveResult :=
  activeLoop cfg script face 0

/-- The daemon's outer `run` loop (fs_source_daemon.py lines 309–329)
over a list of active-session scripts: each entry records the stored
`face_detected` at session start and the session's outcome; neither
`run` nor standby touches `face_detected` between sessions. -/
def runSessions (cfg : DaemonConfig) : Bool → List (List CycleInput) →
    List (Bool × ActiveResult)
  | _, [] => []
  | face, s :: rest =>
    let r := active_mode cfg face s
    (face, r) :: runSessions cfg r.face rest

/-! ### Characterisation of the synchronisation loop -/

/-- Update of one item by source-name match (the net per-item effect of
the synchronisation). -/
def updMatch (src : String) (v : Bool) (it : SceneItem) : SceneItem :=
  if it.sourceName = src then { it with enabled := v } else it

/-- Item ids of the matching items in a snapshot. -/
def matchIds (src : String) (its : List SceneItem) : List Nat :=
  (its.filter (fun it => it.sourceName = src)).map (fun it => it.sceneItemId)

/-- Items of a scene after synchronising `src` to `v`. -/
def updMatchItems (src : String) (v : Bool) (its : List SceneItem) : List SceneItem :=
  its.map (updMatch src v)

/-- The net effect of processing one scene name on a scene: updated
when it carries that name and its fetch succeeds, untouched otherwise. -/
def updIfScene (nm src : String) (v : Bool) (sc : Scene) : Scene :=
  if sc.sceneName = nm ∧ sc.fetchFails = false then
    { sc with items := updMatchItems src v sc.items }
  else sc

/-- The net per-scene effect of a whole synchronisation call: excluded
or fetch-failing scenes untouched, all matching items elsewhere set. -/
def syncScene (src : String) (v : Bool) (excl : List String) (sc : Scene) : Scene :=
  if sc.sceneName ∈ excl ∨ sc.fetchFails = true then sc
  else { sc with items := updMatchItems src v sc.items }

/-- The set-enabled calls a synchronisation call issues for one scene. -/
def callsOfScene (src : String) (v : Bool) (excl : List String) (sc : Scene) :
    List EnableCall :=
  if sc.sceneName ∈ excl ∨ sc.fetchFails = true then []
  else (sc.items.filter (fun it => it.sourceName = src)).map
    (fun it => EnableCall.mk sc.sceneName it.sceneItemId v)

/-- The set-enabled calls the loop issues while processing one scene
name against the current remote state. -/
def callsForName (src : String) (v : Bool) (excl : List String) (st : ObsState)
    (nm : String) : List EnableCall :=
  if nm ∈ excl then []
  else
    match fetchItems st nm with
    | none => []
    | some its => (its.filter (fun it => it.sourceName = src)).map
        (fun it => EnableCall.mk nm it.sceneItemId v)

/-- The structural invariants OBS guarantees for its scene graph:
scene names are unique, and item ids are unique within each scene. -/
def WellFormed (st : ObsState) : Prop :=
  (st.scenes.map (fun sc => sc.sceneName)).Nodup ∧
  ∀ sc ∈ st.scenes, (sc.items.map (fun it => it.sceneItemId)).Nodup

instance (st : ObsState) : Decidable (WellFormed st) := by
  unfold WellFormed; infer_instance

/-- Every scene's item-list fetch succeeds. -/
def NoFetchFailures (st : ObsState) : Prop := ∀ sc ∈ st.scenes, sc.fetchFails = false

instance (st : ObsState) : Decidable (NoFetchFailures st) := by
  unfold NoFetchFailures; infer_instance

theorem applyItems_state (nm src : String) (v : Bool) (its : List SceneItem)
    (st : ObsState) :
    (applyItems nm src v its st).state =
      ⟨st.scenes.map (fun sc => if sc.sceneName = nm
        then { sc with items := sc.items.map (fun x =>
          if x.sceneItemId ∈ matchIds src its then { x with enabled := v } else x) }
        else sc)⟩ := by
  induction its generalizing st with
  | nil =>
    show st = _
    have hf : ∀ sc ∈ st.scenes, (if sc.sceneName = nm
        then { sc with items := sc.items.map (fun x =>
          if x.sceneItemId ∈ matchIds src ([] : List SceneItem)
          then { x with enabled := v } else x) }
        else sc) = sc := by
      intro sc _
      obtain ⟨snm, sff, sits⟩ := sc
      simp [matchIds]
    conv_rhs => rw [List.map_congr_left hf, List.map_id']
  | cons it rest ih =>
    by_cases h : it.sourceName = src
    · have hm : matchIds src (it :: rest) = it.sceneItemId :: matchIds src rest := by
        simp [matchIds, List.filter_cons, h]
      simp only [applyItems, if_pos h]
      rw [ih]
      simp only [setItemEnabled, List.map_map, hm]
      congr 1
      apply List.map_congr_left
      intro sc _
      obtain ⟨snm, sff, sits⟩ := sc
      simp only [Function.comp_apply, updSceneById]
      by_cases hn : snm = nm
      · simp only [if_pos hn, List.map_map]
        congr 1
        apply List.map_congr_left
        intro x _
        obtain ⟨xs, xi, xe⟩ := x
        simp only [Function.comp_apply, updItem]
        by_cases hx : xi = it.sceneItemId
        · simp [hx, List.mem_cons]
        · simp [hx, List.mem_cons]
      · simp only [if_neg hn]
    · have hm : matchIds src (it :: rest) = matchIds src rest := by
        simp [matchIds, List.filter_cons, h]
      simp only [applyItems, if_neg h]
      rw [ih, hm]

theorem applyItems_calls (nm src : String) (v : Bool) (its : List SceneItem)
    (st : ObsState) :
    (applyItems nm src v its st).calls =
      (its.filter (fun x => x.sourceName = src)).map
        (fun x => EnableCall.mk nm x.sceneItemId v) := by
  induction its generalizing st with
  | nil => rfl
  | cons it rest ih =>
    by_cases h : it.sourceName = src <;>
      simp [applyItems, h, List.filter_cons, ih]

theorem applyItems_modified (nm src : String) (v : Bool) (its : List SceneItem)
    (st : ObsState) :
    (applyItems nm src v its st).modified = (applyItems nm src v its st).calls.length := by
  induction its generalizing st with
  | nil => rfl
  | cons it rest ih =>
    by_cases h : it.sourceName = src <;> simp [applyItems, h, ih]

theorem find?_scene_eq (l : List Scene) (sc : Scene) (hmem : sc ∈ l)
    (hnd : (l.map (fun s => s.sceneName)).Nodup) :
    l.find? (fun s => s.sceneName = sc.sceneName) = some sc := by
  induction l with
  | nil => cases hmem
  | cons hd tl ih =>
    rw [List.map_cons, List.nodup_cons] at hnd
    rcases List.mem_cons.mp hmem with rfl | hmem'
    · exact List.find?_cons_of_pos _ (by simp)
    · have hne : ¬ (hd.sceneName = sc.sceneName) := by
        intro he
        exact hnd.1 (he ▸ List.mem_map.mpr ⟨sc, hmem', rfl⟩)
      rw [List.find?_cons_of_neg _ (by simpa using hne)]
      exact ih hmem' hnd.2

theorem fetchItems_eq {st : ObsState} (hwf : WellFormed st) {sc : Scene}
    (hmem : sc ∈ st.scenes) :
    fetchItems st sc.sceneName = if sc.fetchFails then none else some sc.items := by
  unfold fetchItems
  rw [find?_scene_eq st.scenes sc hmem hwf.1]

theorem mem_matchIds_iff {src : String} {its : List SceneItem}
    (hnd : (its.map (fun it => it.sceneItemId)).Nodup) {x : SceneItem} (hx : x ∈ its) :
    x.sceneItemId ∈ matchIds src its ↔ x.sourceName = src := by
  constructor
  · intro hmem
    unfold matchIds at hmem
    obtain ⟨y, hy, hyx⟩ := List.mem_map.mp hmem
    have hy' := List.mem_of_mem_filter hy
    have hxy : y = x := List.inj_on_of_nodup_map hnd hy' hx hyx
    have hsrc := List.of_mem_filter hy
    rw [← hxy]
    exact of_decide_eq_true hsrc
  · intro hmatch
    exact List.mem_map.mpr ⟨x, List.mem_filter.mpr ⟨hx, by simpa using hmatch⟩, rfl⟩

theorem updIfScene_name (nm src : String) (v : Bool) (sc : Scene) :
    (updIfScene nm src v sc).sceneName = sc.sceneName := by
  unfold updIfScene; split <;> rfl

theorem updIfScene_ff (nm src : String) (v : Bool) (sc : Scene) :
    (updIfScene nm src v sc).fetchFails = sc.fetchFails := by
  unfold updIfScene; split <;> rfl

theorem updMatch_id (src : String) (v : Bool) (x : SceneItem) :
    (updMatch src v x).sceneItemId = x.sceneItemId := by
  unfold updMatch; split <;> rfl

theorem updMatch_src (src : String) (v : Bool) (x : SceneItem) :
    (updMatch src v x).sourceName = x.sourceName := by
  unfold updMatch; split <;> rfl

theorem updIfScene_ids (nm src : String) (v : Bool) (sc : Scene) :
    ((updIfScene nm src v sc).items.map (fun it => it.sceneItemId))
      = sc.items.map (fun it => it.sceneItemId) := by
  unfold updIfScene
  split
  · show (updMatchItems src v sc.items).map _ = _
    unfold updMatchItems
    rw [List.map_map]
    exact List.map_congr_left (fun x _ => by rw [Function.comp_apply, updMatch_id])
  · rfl

theorem wf_map_updIfScene {st : ObsState} (hwf : WellFormed st) (nm src : String)
    (v : Bool) : WellFormed ⟨st.scenes.map (updIfScene nm src v)⟩ := by
  constructor
  · show ((st.scenes.map (updIfScene nm src v)).map (fun sc => sc.sceneName)).Nodup
    rw [List.map_map]
    rw [List.map_congr_left (fun sc _ => by
      rw [Function.comp_apply, updIfScene_name] :
        ∀ sc ∈ st.scenes, ((fun sc => sc.sceneName) ∘ updIfScene nm src v) sc = sc.sceneName)]
    exact hwf.1
  · intro sc' hsc'
    obtain ⟨sc, hsc, rfl⟩ := List.mem_map.mp hsc'
    rw [updIfScene_ids]
    exact hwf.2 sc hsc

theorem processScene_state (src : String) (v : Bool) (nm : String) (st : ObsState)
    (hwf : WellFormed st) :
    (processScene src v nm st).state = ⟨st.scenes.map (updIfScene nm src v)⟩ := by
  unfold processScene
  cases hfetch : fetchItems st nm with
  | none =>
    show st = _
    have hf : ∀ sc ∈ st.scenes, updIfScene nm src v sc = sc := by
      intro sc hsc
      unfold updIfScene
      rw [if_neg]
      rintro ⟨h1, h2⟩
      have := fetchItems_eq hwf hsc
      rw [h1, h2, hfetch] at this
      simp at this
    conv_rhs => rw [List.map_congr_left hf, List.map_id']
  | some its =>
    show (applyItems nm src v its st).state = _
    unfold fetchItems at hfetch
    cases hfind : st.scenes.find? (fun sc => sc.sceneName = nm) with
    | none => simp only [hfind] at hfetch; cases hfetch
    | some sc0 =>
      simp only [hfind] at hfetch
      have hmem0 : sc0 ∈ st.scenes := List.mem_of_find?_eq_some hfind
      have hps := List.find?_some hfind
      have hname0 : sc0.sceneName = nm := by simpa using hps
      by_cases hff : sc0.fetchFails
      · rw [if_pos hff] at hfetch; cases hfetch
      · rw [if_neg hff] at hfetch
        have hits : its = sc0.items := (Option.some.injEq _ _ ▸ hfetch).symm
        rw [applyItems_state]
        congr 1
        apply List.map_congr_left
        intro sc hsc
        by_cases hn : sc.sceneName = nm
        · have hsame : sc = sc0 :=
            List.inj_on_of_nodup_map hwf.1 hsc hmem0 (hn.trans hname0.symm)
          have hids := hwf.2 sc hsc
          rw [if_pos hn]
          unfold updIfScene
          rw [if_pos ⟨hn, by rw [hsame]; exact Bool.eq_false_iff.mpr hff⟩]
          have hitems : sc.items.map (fun x =>
              if x.sceneItemId ∈ matchIds src its then { x with enabled := v } else x)
              = updMatchItems src v sc.items := by
            apply List.map_congr_left
            intro x hx
            rw [hits, ← hsame] at *
            unfold updMatch
            by_cases hm : x.sourceName = src
            · rw [if_pos ((mem_matchIds_iff hids hx).mpr hm), if_pos hm]
            · rw [if_neg (fun hc => hm ((mem_matchIds_iff hids hx).mp hc)), if_neg hm]
          rw [hitems]
        · rw [if_neg hn]
          unfold updIfScene
          rw [if_neg (fun hc => hn hc.1)]

theorem processScene_calls (src : String) (v : Bool) (nm : String) (st : ObsState) :
    (processScene src v nm st).calls =
      (match fetchItems st nm with
       | none => []
       | some its => (its.filter (fun it => it.sourceName = src)).map
           (fun it => EnableCall.mk nm it.sceneItemId v)) := by
  unfold processScene
  cases fetchItems st nm with
  | none => rfl
  | some its => exact applyItems_calls nm src v its st

theorem processScene_modified (src : String) (v : Bool) (nm : String) (st : ObsState) :
    (processScene src v nm st).modified = (processScene src v nm st).calls.length := by
  unfold processScene
  cases fetchItems st nm with
  | none => rfl
  | some its => exact applyItems_modified nm src v its st

theorem fetchItems_map_updIfScene (st : ObsState) (nm nm' src : String) (v : Bool)
    (h : ¬ nm' = nm) :
    fetchItems ⟨st.scenes.map (updIfScene nm src v)⟩ nm' = fetchItems st nm' := by
  unfold fetchItems
  rw [List.find?_map]
  have hp : ((fun sc : Scene => decide (sc.sceneName = nm')) ∘ updIfScene nm src v)
      = (fun sc : Scene => decide (sc.sceneName = nm')) := by
    funext sc
    rw [Function.comp_apply, updIfScene_name]
  rw [hp]
  cases hfind : st.scenes.find? (fun sc => sc.sceneName = nm') with
  | none => rfl
  | some sc =>
    have hps := List.find?_some hfind
    have hname : sc.sceneName = nm' := by simpa using hps
    have hid : updIfScene nm src v sc = sc := by
      unfold updIfScene
      rw [if_neg]
      rintro ⟨h1, _⟩
      exact h (hname ▸ h1)
    simp [hid]

theorem callsForName_map_updIfScene (src : String) (v : Bool) (excl : List String)
    (st : ObsState) (nm nm' : String) (h : ¬ nm' = nm) :
    callsForName src v excl ⟨st.scenes.map (updIfScene nm src v)⟩ nm'
      = callsForName src v excl st nm' := by
  unfold callsForName
  rw [fetchItems_map_updIfScene st nm nm' src v h]

theorem swLoop_char (src : String) (v : Bool) (excl : List String) :
    ∀ (names : List String) (st : ObsState), names.Nodup → WellFormed st →
    swLoop src v excl names st =
      ⟨⟨st.scenes.map (fun sc => if sc.sceneName ∈ names then syncScene src v excl sc else sc)⟩,
       (names.flatMap (callsForName src v excl st)).length,
       names.flatMap (callsForName src v excl st)⟩ := by
  intro names
  induction names with
  | nil =>
    intro st _ _
    show (⟨st, 0, []⟩ : LoopOut) = _
    have hf : ∀ sc ∈ st.scenes,
        (if sc.sceneName ∈ ([] : List String) then syncScene src v excl sc else sc) = sc := by
      intro sc _
      rw [if_neg (List.not_mem_nil _)]
    conv_rhs => rw [List.map_congr_left hf, List.map_id', List.flatMap_nil]
    rfl
  | cons nm rest ih =>
    intro st hnd hwf
    rw [List.nodup_cons] at hnd
    by_cases hex : nm ∈ excl
    · have hstate : st.scenes.map (fun sc =>
          if sc.sceneName ∈ nm :: rest then syncScene src v excl sc else sc)
          = st.scenes.map (fun sc =>
          if sc.sceneName ∈ rest then syncScene src v excl sc else sc) := by
        apply List.map_congr_left
        intro sc _
        by_cases hm : sc.sceneName ∈ rest
        · rw [if_pos hm, if_pos (List.mem_cons.mpr (Or.inr hm))]
        · by_cases heq : sc.sceneName = nm
          · rw [if_neg hm, if_pos (List.mem_cons.mpr (Or.inl heq))]
            unfold syncScene
            rw [if_pos (Or.inl (heq ▸ hex))]
          · rw [if_neg hm, if_neg (by simp [List.mem_cons, heq, hm])]
      have hcalls : (nm :: rest).flatMap (callsForName src v excl st)
          = rest.flatMap (callsForName src v excl st) := by
        rw [List.flatMap_cons]
        have : callsForName src v excl st nm = [] := by
          unfold callsForName; rw [if_pos hex]
        rw [this, List.nil_append]
      simp only [swLoop, if_pos hex]
      rw [ih st hnd.2 hwf, hstate, hcalls]
    · simp only [swLoop, if_neg hex]
      have hps := processScene_state src v nm st hwf
      have hwf' : WellFormed (processScene src v nm st).state := by
        rw [hps]; exact wf_map_updIfScene hwf nm src v
      rw [ih (processScene src v nm st).state hnd.2 hwf']
      have hcn : ∀ nm' ∈ rest,
          callsForName src v excl (processScene src v nm st).state nm'
            = callsForName src v excl st nm' := by
        intro nm' hnm'
        rw [hps]
        exact callsForName_map_updIfScene src v excl st nm nm'
          (fun he => hnd.1 (he ▸ hnm'))
      have hrest : rest.flatMap (callsForName src v excl (processScene src v nm st).state)
          = rest.flatMap (callsForName src v excl st) := List.flatMap_congr hcn
      have hpcalls : (processScene src v nm st).calls = callsForName src v excl st nm := by
        rw [processScene_calls]
        unfold callsForName
        rw [if_neg hex]
      have hstate : (processScene src v nm st).state.scenes.map (fun sc =>
          if sc.sceneName ∈ rest then syncScene src v excl sc else sc)
          = st.scenes.map (fun sc =>
          if sc.sceneName ∈ nm :: rest then syncScene src v excl sc else sc) := by
        rw [hps]
        show (st.scenes.map (updIfScene nm src v)).map _ = _
        rw [List.map_map]
        apply List.map_congr_left
        intro sc _
        rw [Function.comp_apply]
        by_cases hn : sc.sceneName = nm
        · have hnotr : ¬ sc.sceneName ∈ rest := hn ▸ hnd.1
          by_cases hff : sc.fetchFails
          · have hid : updIfScene nm src v sc = sc := by
              unfold updIfScene
              rw [if_neg (fun hc => by rw [hff] at hc; exact absurd hc.2 (by simp))]
            rw [hid, if_neg hnotr, if_pos (List.mem_cons.mpr (Or.inl hn))]
            unfold syncScene
            rw [if_pos (Or.inr hff)]
          · have hupd : updIfScene nm src v sc
                = { sc with items := updMatchItems src v sc.items } := by
              unfold updIfScene
              rw [if_pos ⟨hn, Bool.eq_false_iff.mpr hff⟩]
            rw [hupd]
            rw [if_neg (show ¬ ({ sc with items := updMatchItems src v sc.items} : Scene).sceneName ∈ rest from hnotr)]
            rw [if_pos (List.mem_cons.mpr (Or.inl hn))]
            unfold syncScene
            rw [if_neg (by
              rintro (hc | hc)
              · exact hex (hn ▸ hc)
              · exact hff hc)]
        · have hid : updIfScene nm src v sc = sc := by
            unfold updIfScene
            rw [if_neg (fun hc => hn hc.1)]
          rw [hid]
          by_cases hm : sc.sceneName ∈ rest
          · rw [if_pos hm, if_pos (List.mem_cons.mpr (Or.inr hm))]
          · rw [if_neg hm, if_neg (by simp [List.mem_cons, hn, hm])]
      rw [hrest, hpcalls, hstate]
      have hmod : (processScene src v nm st).modified
          = (callsForName src v excl st nm).length := by
        rw [processScene_modified, hpcalls]
      rw [hmod, List.flatMap_cons, List.length_append]

theorem callsForName_eq_callsOfScene {st : ObsState} (hwf : WellFormed st)
    (src : String) (v : Bool) (excl : List String) {sc : Scene} (hsc : sc ∈ st.scenes) :
    callsForName src v excl st sc.sceneName = callsOfScene src v excl sc := by
  unfold callsForName callsOfScene
  by_cases hex : sc.sceneName ∈ excl
  · rw [if_pos hex, if_pos (Or.inl hex)]
  · rw [if_neg hex, fetchItems_eq hwf hsc]
    by_cases hff : sc.fetchFails
    · rw [if_pos hff, if_pos (Or.inr hff)]
    · rw [if_neg hff, if_neg (by rintro (hc | hc); exacts [hex hc, hff hc])]

theorem swSync_char (st : ObsState) (src : String) (v : Bool)
    (exclOpt : Option (List String)) (hwf : WellFormed st) (hsrc : ¬ src = "") :
    set_source_visibility_global true st src v exclOpt =
      ⟨decide (0 < (st.scenes.flatMap (callsOfScene src v (exclOpt.getD []))).length),
       ⟨st.scenes.map (syncScene src v (exclOpt.getD []))⟩,
       (st.scenes.flatMap (callsOfScene src v (exclOpt.getD []))).length,
       st.scenes.flatMap (callsOfScene src v (exclOpt.getD [])),
       decide ((st.scenes.flatMap (callsOfScene src v (exclOpt.getD []))).length = 0)⟩ := by
  have hcalls : (st.scenes.map (fun sc => sc.sceneName)).flatMap
      (callsForName src v (exclOpt.getD []) st)
      = st.scenes.flatMap (callsOfScene src v (exclOpt.getD [])) := by
    rw [List.flatMap_map]
    exact List.flatMap_congr (fun sc hsc => callsForName_eq_callsOfScene hwf src v _ hsc)
  have hstate : st.scenes.map (fun sc =>
      if sc.sceneName ∈ st.scenes.map (fun sc => sc.sceneName)
      then syncScene src v (exclOpt.getD []) sc else sc)
      = st.scenes.map (syncScene src v (exclOpt.getD [])) := by
    apply List.map_congr_left
    intro sc hsc
    rw [if_pos (List.mem_map.mpr ⟨sc, hsc, rfl⟩)]
  show (if src = "" then ⟨false, st, 0, [], false⟩
    else
      let r := swLoop src v (exclOpt.getD []) (st.scenes.map (fun sc => sc.sceneName)) st
      (⟨decide (0 < r.modified), r.state, r.modified, r.calls, decide (r.modified = 0)⟩ :
        SyncResult)) = _
  rw [if_neg hsrc]
  show (⟨_, _, _, _, _⟩ : SyncResult) = _
  rw [swLoop_char src v (exclOpt.getD []) (st.scenes.map (fun sc => sc.sceneName)) st
    hwf.1 hwf, hcalls, hstate]

/-- The daemon's single-scene exclusion argument, as the set of scene
names it actually shields from writes. -/
def dexclList (excl : Option String) : List String :=
  match excl with
  | none => []
  | some e => if e = "" then [] else [e]

theorem daemonExcluded_iff (excl : Option String) (nm : String) :
    daemonExcluded excl nm = true ↔ nm ∈ dexclList excl := by
  cases excl with
  | none => simp [daemonExcluded, dexclList]
  | some e =>
    by_cases he : e = "" <;> simp [daemonExcluded, dexclList, he]

theorem daemonLoop_eq_swLoop (src : String) (v : Bool) (excl : Option String) :
    ∀ (names : List String) (st : ObsState), names.Nodup → WellFormed st →
    (∀ nm ∈ names, ¬ daemonExcluded excl nm = true → (fetchItems st nm).isSome) →
    daemonLoop src v excl names st =
      ⟨(swLoop src v (dexclList excl) names st).state,
       (swLoop src v (dexclList excl) names st).modified,
       (swLoop src v (dexclList excl) names st).calls, false⟩ := by
  intro names
  induction names with
  | nil => intro st _ _ _; rfl
  | cons nm rest ih =>
    intro st hnd hwf hfetch
    rw [List.nodup_cons] at hnd
    by_cases hex : daemonExcluded excl nm = true
    · have hmem : nm ∈ dexclList excl := (daemonExcluded_iff excl nm).mp hex
      simp only [daemonLoop, if_pos hex, swLoop, if_pos hmem]
      exact ih st hnd.2 hwf
        (fun nm' h' hne => hfetch nm' (List.mem_cons.mpr (Or.inr h')) hne)
    · have hnmem : ¬ nm ∈ dexclList excl := fun hc => hex ((daemonExcluded_iff excl nm).mpr hc)
      have hsome : (fetchItems st nm).isSome := hfetch nm (List.mem_cons.mpr (Or.inl rfl)) hex
      cases hfetchv : fetchItems st nm with
      | none => rw [hfetchv] at hsome; cases hsome
      | some its =>
        have hproc : processScene src v nm st = applyItems nm src v its st := by
          unfold processScene; rw [hfetchv]
        have hst' : (applyItems nm src v its st).state
            = ⟨st.scenes.map (updIfScene nm src v)⟩ := by
          rw [← hproc]; exact processScene_state src v nm st hwf
        have hwf' : WellFormed (applyItems nm src v its st).state := by
          rw [hst']; exact wf_map_updIfScene hwf nm src v
        have hfetch' : ∀ nm' ∈ rest, ¬ daemonExcluded excl nm' = true →
            (fetchItems (applyItems nm src v its st).state nm').isSome := by
          intro nm' h' hne
          rw [hst', fetchItems_map_updIfScene st nm nm' src v (fun he => hnd.1 (he ▸ h'))]
          exact hfetch nm' (List.mem_cons.mpr (Or.inr h')) hne
        simp only [daemonLoop, if_neg hex, hfetchv, swLoop, if_neg hnmem]
        rw [ih (applyItems nm src v its st).state hnd.2 hwf' hfetch', hproc]

theorem daemonLoop_abort (src : String) (v : Bool) (excl : Option String) :
    ∀ (names : List String) (st : ObsState), WellFormed st →
    (∃ nm ∈ names, ¬ daemonExcluded excl nm = true ∧ fetchItems st nm = none) →
    (daemonLoop src v excl names st).aborted = true := by
  intro names
  induction names with
  | nil => rintro st _ ⟨nm, hmem, _⟩; cases hmem
  | cons nm rest ih =>
    rintro st hwf ⟨nm', hmem', hnex', hfetch'⟩
    by_cases hex : daemonExcluded excl nm = true
    · simp only [daemonLoop, if_pos hex]
      apply ih st hwf
      rcases List.mem_cons.mp hmem' with rfl | h'
      · exact absurd hex hnex'
      · exact ⟨nm', h', hnex', hfetch'⟩
    · cases hfetchv : fetchItems st nm with
      | none => simp only [daemonLoop, if_neg hex, hfetchv]
      | some its =>
        have hne : ¬ nm' = nm := by
          intro he
          rw [he, hfetchv] at hfetch'
          cases hfetch'
        have hproc : processScene src v nm st = applyItems nm src v its st := by
          unfold processScene; rw [hfetchv]
        have hst' : (applyItems nm src v its st).state
            = ⟨st.scenes.map (updIfScene nm src v)⟩ := by
          rw [← hproc]; exact processScene_state src v nm st hwf
        have hwf' : WellFormed (applyItems nm src v its st).state := by
          rw [hst']; exact wf_map_updIfScene hwf nm src v
        simp only [daemonLoop, if_neg hex, hfetchv]
        apply ih _ hwf'
        refine ⟨nm', ?_, hnex', ?_⟩
        · rcases List.mem_cons.mp hmem' with rfl | h'
          · exact absurd rfl hne
          · exact h'
        · rw [hst', fetchItems_map_updIfScene st nm nm' src v hne]
          exact hfetch'

theorem daemonSync_abort (st : ObsState) (src : String) (v : Bool)
    (excl : Option String) (hwf : WellFormed st) (hsrc : ¬ src = "")
    (hbad : ∃ sc ∈ st.scenes, ¬ daemonExcluded excl sc.sceneName = true ∧ sc.fetchFails = true) :
    (set_source_visibility_globalD true st src v excl).ok = false := by
  obtain ⟨sc, hsc, hnex, hff⟩ := hbad
  have habort : (daemonLoop src v excl (st.scenes.map (fun sc => sc.sceneName)) st).aborted
      = true := by
    apply daemonLoop_abort src v excl _ st hwf
    refine ⟨sc.sceneName, List.mem_map.mpr ⟨sc, hsc, rfl⟩, hnex, ?_⟩
    rw [fetchItems_eq hwf hsc, if_pos hff]
  show (if src = "" then (⟨false, st, 0, []⟩ : DSyncResult)
    else
      let r := daemonLoop src v excl (st.scenes.map (fun sc => sc.sceneName)) st
      if r.aborted then ⟨false, r.state, r.modified, r.calls⟩
      else ⟨decide (0 < r.modified), r.state, r.modified, r.calls⟩).ok = false
  rw [if_neg hsrc]
  show (if (daemonLoop src v excl (st.scenes.map (fun sc => sc.sceneName)) st).aborted
    then (⟨false, _, _, _⟩ : DSyncResult) else ⟨_, _, _, _⟩).ok = false
  rw [if_pos habort]

theorem daemonSync_char (st : ObsState) (src : String) (v : Bool)
    (excl : Option String) (hwf : WellFormed st) (hsrc : ¬ src = "")
    (hnf : NoFetchFailures st) :
    set_source_visibility_globalD true st src v excl =
      ⟨decide (0 < (st.scenes.flatMap (callsOfScene src v (dexclList excl))).length),
       ⟨st.scenes.map (syncScene src v (dexclList excl))⟩,
       (st.scenes.flatMap (callsOfScene src v (dexclList excl))).length,
       st.scenes.flatMap (callsOfScene src v (dexclList excl))⟩ := by
  have hfetch : ∀ nm ∈ st.scenes.map (fun sc => sc.sceneName),
      ¬ daemonExcluded excl nm = true → (fetchItems st nm).isSome := by
    intro nm hnm _
    obtain ⟨sc, hsc, rfl⟩ := List.mem_map.mp hnm
    rw [fetchItems_eq hwf hsc, hnf sc hsc]
    rfl
  have hloop := daemonLoop_eq_swLoop src v excl (st.scenes.map (fun sc => sc.sceneName))
    st hwf.1 hwf hfetch
  have hcalls : (st.scenes.map (fun sc => sc.sceneName)).flatMap
      (callsForName src v (dexclList excl) st)
      = st.scenes.flatMap (callsOfScene src v (dexclList excl)) := by
    rw [List.flatMap_map]
    exact List.flatMap_congr (fun sc hsc => callsForName_eq_callsOfScene hwf src v _ hsc)
  have hstate : st.scenes.map (fun sc =>
      if sc.sceneName ∈ st.scenes.map (fun sc => sc.sceneName)
      then syncScene src v (dexclList excl) sc else sc)
      = st.scenes.map (syncScene src v (dexclList excl)) := by
    apply List.map_congr_left
    intro sc hsc
    rw [if_pos (List.mem_map.mpr ⟨sc, hsc, rfl⟩)]
  show (if src = "" then (⟨false, st, 0, []⟩ : DSyncResult)
    else
      let r := daemonLoop src v excl (st.scenes.map (fun sc => sc.sceneName)) st
      if r.aborted then ⟨false, r.state, r.modified, r.calls⟩
      else ⟨decide (0 < r.modified), r.state, r.modified, r.calls⟩) = _
  rw [if_neg hsrc]
  show (let r := daemonLoop src v excl (st.scenes.map (fun sc => sc.sceneName)) st
    if r.aborted then (⟨false, r.state, r.modified, r.calls⟩ : DSyncResult)
    else ⟨decide (0 < r.modified), r.state, r.modified, r.calls⟩) = _
  rw [hloop]
  show (⟨_, _, _, _⟩ : DSyncResult) = _
  rw [swLoop_char src v (dexclList excl) (st.scenes.map (fun sc => sc.sceneName)) st
    hwf.1 hwf, hcalls, hstate]

theorem syncScene_name (src : String) (v : Bool) (excl : List String) (sc : Scene) :
    (syncScene src v excl sc).sceneName = sc.sceneName := by
  unfold syncScene; split <;> rfl

theorem syncScene_ff (src : String) (v : Bool) (excl : List String) (sc : Scene) :
    (syncScene src v excl sc).fetchFails = sc.fetchFails := by
  unfold syncScene; split <;> rfl

theorem syncScene_ids (src : String) (v : Bool) (excl : List String) (sc : Scene) :
    ((syncScene src v excl sc).items.map (fun it => it.sceneItemId))
      = sc.items.map (fun it => it.sceneItemId) := by
  unfold syncScene
  split
  · rfl
  · show (updMatchItems src v sc.items).map _ = _
    unfold updMatchItems
    rw [List.map_map]
    exact List.map_congr_left (fun x _ => by rw [Function.comp_apply, updMatch_id])

theorem wf_map_syncScene {st : ObsState} (hwf : WellFormed st) (src : String)
    (v : Bool) (excl : List String) :
    WellFormed ⟨st.scenes.map (syncScene src v excl)⟩ := by
  constructor
  · show ((st.scenes.map (syncScene src v excl)).map (fun sc => sc.sceneName)).Nodup
    rw [List.map_map]
    rw [List.map_congr_left (fun sc _ => by
      rw [Function.comp_apply, syncScene_name] :
        ∀ sc ∈ st.scenes, ((fun sc => sc.sceneName) ∘ syncScene src v excl) sc = sc.sceneName)]
    exact hwf.1
  · intro sc' hsc'
    obtain ⟨sc, hsc, rfl⟩ := List.mem_map.mp hsc'
    rw [syncScene_ids]
    exact hwf.2 sc hsc

theorem nf_map_syncScene {st : ObsState} (hnf : NoFetchFailures st) (src : String)
    (v : Bool) (excl : List String) :
    NoFetchFailures ⟨st.scenes.map (syncScene src v excl)⟩ := by
  intro sc' hsc'
  obtain ⟨sc, hsc, rfl⟩ := List.mem_map.mp hsc'
  rw [syncScene_ff]
  exact hnf sc hsc

theorem updMatch_idem (src : String) (v : Bool) (x : SceneItem) :
    updMatch src v (updMatch src v x) = updMatch src v x := by
  obtain ⟨xs, xi, xe⟩ := x
  by_cases h : xs = src <;> simp [updMatch, h]

theorem updMatchItems_idem (src : String) (v : Bool) (its : List SceneItem) :
    updMatchItems src v (updMatchItems src v its) = updMatchItems src v its := by
  unfold updMatchItems
  rw [List.map_map]
  exact List.map_congr_left (fun x _ => by rw [Function.comp_apply, updMatch_idem])

theorem syncScene_idem (src : String) (v : Bool) (excl : List String) (sc : Scene) :
    syncScene src v excl (syncScene src v excl sc) = syncScene src v excl sc := by
  obtain ⟨snm, sff, sits⟩ := sc
  by_cases hc : snm ∈ excl ∨ sff = true <;>
    simp [syncScene, hc, updMatchItems_idem]

theorem pollEvents_cons_eq (cfg : DaemonConfig) (prev c : Bool) (rest : List Bool)
    (h : c = prev) :
    pollEvents cfg prev (c :: rest) = pollEvents cfg prev rest := by
  conv_lhs => rw [pollEvents]
  simp only [pollStep]
  rw [if_pos h]

theorem pollEvents_cons_ne (cfg : DaemonConfig) (prev c : Bool) (rest : List Bool)
    (h : ¬ c = prev) :
    pollEvents cfg prev (c :: rest) = c :: pollEvents cfg c rest := by
  conv_lhs => rw [pollEvents]
  simp only [pollStep]
  rw [if_neg h]

theorem pollEvents_chain (cfg : DaemonConfig) :
    ∀ (ds : List Bool) (prev : Bool),
    List.Chain' (fun a b => ¬ a = b) (prev :: pollEvents cfg prev ds) := by
  intro ds
  induction ds with
  | nil => intro prev; simp [pollEvents]
  | cons c rest ih =>
    intro prev
    by_cases h : c = prev
    · rw [pollEvents_cons_eq cfg prev c rest h]
      exact ih prev
    · rw [pollEvents_cons_ne cfg prev c rest h]
      rw [List.chain'_cons]
      exact ⟨fun he => h he.symm, ih c⟩

theorem activeLoop_frameFail_max (cfg : DaemonConfig) (rest : List CycleInput)
    (f : Bool) (errs : Nat) (he : 5 ≤ errs + 1) :
    activeLoop cfg (CycleInput.frameFail :: rest) f errs
      = ⟨ActiveExit.tooManyErrors, f, [], []⟩ := by
  simp only [activeLoop]
  rw [if_pos he]

theorem activeLoop_frameFail_cont (cfg : DaemonConfig) (rest : List CycleInput)
    (f : Bool) (errs : Nat) (he : ¬ 5 ≤ errs + 1) :
    activeLoop cfg (CycleInput.frameFail :: rest) f errs
      = activeLoop cfg rest f (errs + 1) := by
  simp only [activeLoop]
  rw [if_neg he]

theorem activeLoop_exit_char (cfg : DaemonConfig) :
    ∀ (script : List CycleInput) (f : Bool) (errs : Nat),
    ((activeLoop cfg script f errs).exit = ActiveExit.obsLost →
      (activeLoop cfg script f errs).face = false ∧
      (activeLoop cfg script f errs).exitCalls = resetCalls cfg) ∧
    ((activeLoop cfg script f errs).exit = ActiveExit.tooManyErrors →
      (activeLoop cfg script f errs).exitCalls = []) := by
  intro script
  induction script with
  | nil =>
    intro f errs
    constructor <;> intro h <;> simp [activeLoop] at h
  | cons c rest ih =>
    intro f errs
    cases c with
    | obsDown => exact ⟨fun _ => ⟨rfl, rfl⟩, fun h => (by cases h)⟩
    | frameFail =>
      by_cases he : 5 ≤ errs + 1
      · rw [activeLoop_frameFail_max cfg rest f errs he]
        exact ⟨fun h => (by cases h), fun _ => rfl⟩
      · rw [activeLoop_frameFail_cont cfg rest f errs he]
        exact ih f (errs + 1)
    | frame d =>
      simp only [activeLoop]
      exact ih (pollStep cfg f d).1 0

theorem runSessions_chain (cfg : DaemonConfig) :
    ∀ (scripts : List (List CycleInput)) (f : Bool),
    List.Chain' (fun a b => b.1 = a.2.face) (runSessions cfg f scripts) := by
  intro scripts
  induction scripts with
  | nil => intro f; simp [runSessions]
  | cons s rest ih =>
    intro f
    show List.Chain' _ ((f, active_mode cfg f s) :: runSessions cfg (active_mode cfg f s).face rest)
    cases rest with
    | nil => simp [runSessions]
    | cons s2 rest2 =>
      show List.Chain' _ ((f, active_mode cfg f s) ::
        (( (active_mode cfg f s).face, active_mode cfg (active_mode cfg f s).face s2)) ::
        runSessions cfg (active_mode cfg (active_mode cfg f s).face s2).face rest2)
      rw [List.chain'_cons]
      exact ⟨rfl, ih (active_mode cfg f s).face⟩

theorem syncScene_matching_enabled (src : String) (v : Bool) (excl : List String)
    (sc0 : Scene) (hcond : ¬ (sc0.sceneName ∈ excl ∨ sc0.fetchFails = true)) :
    ∀ it ∈ (syncScene src v excl sc0).items, it.sourceName = src → it.enabled = v := by
  intro it hit hname
  have hsync : syncScene src v excl sc0
      = { sc0 with items := updMatchItems src v sc0.items } := by
    unfold syncScene; rw [if_neg hcond]
  have hit' : it ∈ List.map (updMatch src v) sc0.items := by
    rw [hsync] at hit; exact hit
  obtain ⟨x, hx, rfl⟩ := List.mem_map.mp hit'
  by_cases hxm : x.sourceName = src
  · show (updMatch src v x).enabled = v
    unfold updMatch
    rw [if_pos hxm]
  · exfalso
    apply hxm
    rw [← updMatch_src src v x]
    exact hname

/-! ### The claims -/

/-- C3: the poll loop emits a transition event (and with it any
visibility write) exactly when the detector's boolean differs from the
stored presence value; equal values produce no event and no
synchronisation invocation, and over any detector sequence no two
consecutive emitted events carry the same resulting state. -/
theorem C3_presence_edge_trigger (cfg : DaemonConfig) (prev cur : Bool)
    (ds : List Bool) :
    ((pollStep cfg prev cur).2.1.isSome = true ↔ ¬ cur = prev) ∧
    pollStep cfg prev prev = (prev, none, []) ∧
    List.Chain' (fun a b => ¬ a = b) (prev :: pollEvents cfg prev ds) := by
  refine ⟨?_, ?_, pollEvents_chain cfg ds prev⟩
  · unfold pollStep
    by_cases h : cur = prev <;> simp [h]
  · unfold pollStep
    rw [if_pos rfl]

/-- Witness for C3 at a concrete configuration and detector sequence. -/
theorem C3_presence_edge_trigger_witness :
    ((pollStep ⟨"O", "I", some "M"⟩ false true).2.1.isSome = true ↔ ¬ true = false) ∧
    pollStep ⟨"O", "I", some "M"⟩ false false = (false, none, []) ∧
    List.Chain' (fun a b => ¬ a = b)
      (false :: pollEvents ⟨"O", "I", some "M"⟩ false [false, true, true, false]) :=
  C3_presence_edge_trigger ⟨"O", "I", some "M"⟩ false true [false, true, true, false]

/-- C9: with no websocket handle, both synchronisation variants return
the failure value immediately, issue no remote call, raise nothing, and
leave the remote state unchanged. -/
theorem C9_no_connection_noop (st : ObsState) (src : String) (v : Bool)
    (exclOpt : Option (List String)) (dexcl : Option String) :
    set_source_visibility_global false st src v exclOpt = ⟨false, st, 0, [], false⟩ ∧
    set_source_visibility_globalD false st src v dexcl = ⟨false, st, 0, []⟩ :=
  ⟨rfl, rfl⟩

/-- C4 counterexample: in `FaceDetectionSwitcher.run` a rising edge with
a configured hide-target ("Idle") issues only the show call — no
synchronisation invocation for the hide-target is made, contrary to the
claimed action table. -/
theorem C4_counterexample_switcher_hide_unused :
    swPollStep ⟨"Overlay", "Idle", "Mon"⟩ false true
      = (true, some true, [⟨"Overlay", true, none⟩]) ∧
    (swPollStep ⟨"Overlay", "Idle", "Mon"⟩ false true).2.2.filter
      (fun c => c.sourceName = "Idle") = [] :=
  ⟨rfl, rfl⟩

/-- C4 (amended): in the daemon's poll loop the full table holds —
rising edge: show-target visible and hide-target hidden, both without
exclusion; falling edge: show-target hidden with the configured
detection scene excluded and hide-target visible without exclusion;
an unset target is skipped.  In the `fs_source.py` loop only the
show-target actions occur (visible/no exclusion on a rising edge,
hidden with the detection-scene exclusion list on a falling edge); the
hide-target is never synchronised there. -/
theorem C4_transition_table_amended (shw hid detS : String) (det : Option String)
    (hs : ¬ shw = "") (hh : ¬ hid = "") :
    pollStep ⟨shw, hid, det⟩ false true
      = (true, some true, [⟨shw, true, none⟩, ⟨hid, false, none⟩]) ∧
    pollStep ⟨shw, hid, det⟩ true false
      = (false, some false, [⟨shw, false, det⟩, ⟨hid, true, none⟩]) ∧
    pollStep ⟨"", hid, det⟩ false true = (true, some true, [⟨hid, false, none⟩]) ∧
    pollStep ⟨shw, "", det⟩ false true = (true, some true, [⟨shw, true, none⟩]) ∧
    pollStep ⟨"", hid, det⟩ true false = (false, some false, [⟨hid, true, none⟩]) ∧
    pollStep ⟨shw, "", det⟩ true false = (false, some false, [⟨shw, false, det⟩]) ∧
    swPollStep ⟨shw, hid, detS⟩ false true = (true, some true, [⟨shw, true, none⟩]) ∧
    swPollStep ⟨shw, hid, detS⟩ true false
      = (false, some false, [⟨shw, false, some (swExcludeScenes ⟨shw, hid, detS⟩)⟩]) ∧
    (∀ b : Bool, ∀ c ∈ swTransitionCalls ⟨shw, hid, detS⟩ b, c.sourceName = shw) := by
  refine ⟨?_, ?_, ?_, ?_, ?_, ?_, ?_, ?_, ?_⟩
  · simp [pollStep, transitionCalls, hs, hh]
  · simp [pollStep, transitionCalls, hs, hh]
  · simp [pollStep, transitionCalls, hh]
  · simp [pollStep, transitionCalls, hs]
  · simp [pollStep, transitionCalls, hh]
  · simp [pollStep, transitionCalls, hs]
  · simp [swPollStep, swTransitionCalls, hs]
  · simp [swPollStep, swTransitionCalls, hs]
  · intro b c hc
    cases b <;> simp [swTransitionCalls, hs] at hc <;> rw [hc]

/-- Witness for C4's amended table at a concrete configuration. -/
theorem C4_transition_table_amended_witness :
    pollStep ⟨"Overlay", "Idle", some "Mon"⟩ false true
      = (true, some true, [⟨"Overlay", true, none⟩, ⟨"Idle", false, none⟩]) :=
  (C4_transition_table_amended "Overlay" "Idle" "Mon" (some "Mon")
    (by decide) (by decide)).1

/-- C2 (amended): only the liveness-probe-failure exit of active mode
performs the reset-to-default pass (show-target hidden everywhere,
hide-target shown everywhere, unset targets skipped; the invocations
are issued even though the connection is already gone, their failure
swallowed) and resets the stored presence to false before returning to
standby; the consecutive-error-ceiling exit performs no reset pass. -/
theorem C2_active_exit_reset_amended (cfg : DaemonConfig) (script : List CycleInput)
    (f : Bool) :
    ((active_mode cfg f script).exit = ActiveExit.obsLost →
      (active_mode cfg f script).face = false ∧
      (active_mode cfg f script).exitCalls = resetCalls cfg) ∧
    ((active_mode cfg f script).exit = ActiveExit.tooManyErrors →
      (active_mode cfg f script).exitCalls = []) :=
  activeLoop_exit_char cfg script f 0

/-- Witness for C2's amended statement on a liveness-failure exit. -/
theorem C2_active_exit_reset_amended_witness :
    (active_mode ⟨"Overlay", "Idle", some "Mon"⟩ true [CycleInput.obsDown]).face = false ∧
    (active_mode ⟨"Overlay", "Idle", some "Mon"⟩ true [CycleInput.obsDown]).exitCalls
      = resetCalls ⟨"Overlay", "Idle", some "Mon"⟩ :=
  (C2_active_exit_reset_amended ⟨"Overlay", "Idle", some "Mon"⟩
    [CycleInput.obsDown] true).1 rfl

/-- C2 counterexample: a session that gains presence and then suffers
five consecutive frame-capture failures exits to standby through the
error ceiling with no reset pass and with the stored presence still
true. -/
theorem C2_counterexample_error_ceiling_no_reset :
    active_mode ⟨"Overlay", "Idle", some "Mon"⟩ false
      [CycleInput.frame true, CycleInput.frameFail, CycleInput.frameFail,
       CycleInput.frameFail, CycleInput.frameFail, CycleInput.frameFail]
      = ⟨ActiveExit.tooManyErrors, true,
         [⟨"Overlay", true, none⟩, ⟨"Idle", false, none⟩], []⟩ := rfl

/-- C8 (amended): the stored presence starts false at daemon
construction and is reset to false on the liveness-failure return to
standby; but it is not re-initialised at active-session start and not
reset on the error-ceiling return — each session starts with the
previous session's final value, so a session can begin with a stale
true. -/
theorem C8_presence_lifecycle_amended (cfg : DaemonConfig) (f : Bool)
    (scripts : List (List CycleInput)) (s : List CycleInput) :
    List.Chain' (fun a b => b.1 = a.2.face) (runSessions cfg f scripts) ∧
    (runSessions cfg f (s :: scripts)).head? = some (f, active_mode cfg f s) ∧
    (∀ script : List CycleInput, ∀ f0 : Bool,
      (active_mode cfg f0 script).exit = ActiveExit.obsLost →
      (active_mode cfg f0 script).face = false) :=
  ⟨runSessions_chain cfg scripts f, rfl,
   fun script f0 h => ((activeLoop_exit_char cfg script f0 0).1 h).1⟩

/-- Witness for C8's amended statement on a liveness-failure exit. -/
theorem C8_presence_lifecycle_amended_witness :
    (active_mode ⟨"Overlay", "Idle", some "Mon"⟩ true
      [CycleInput.frame true, CycleInput.obsDown]).face = false :=
  (C8_presence_lifecycle_amended ⟨"Overlay", "Idle", some "Mon"⟩ false [] []).2.2
    [CycleInput.frame true, CycleInput.obsDown] true rfl

/-- C8 counterexample: a first session ending through the error ceiling
leaves presence true, so the second active session starts with the
stale value true rather than false. -/
theorem C8_counterexample_stale_presence :
    (runSessions ⟨"Overlay", "Idle", some "Mon"⟩ false
      [[CycleInput.frame true, CycleInput.frameFail, CycleInput.frameFail,
        CycleInput.frameFail, CycleInput.frameFail, CycleInput.frameFail],
       []]).map Prod.fst = [false, true] := rfl

/-- C1 (amended): in `fs_source.py` a failed per-scene item fetch only
skips that scene — after the call, every non-excluded scene whose fetch
succeeds has all its matching items set to the desired value, whatever
other scenes failed; in the daemon variant a per-scene fetch failure
instead aborts the call, which returns False (the counterexample shows
scenes after the failing one left unmodified). -/
theorem C1_partial_failure_amended (st : ObsState) (src : String) (v : Bool)
    (exclOpt : Option (List String)) (dexcl : Option String)
    (hwf : WellFormed st) (hsrc : ¬ src = "") :
    (∀ sc ∈ (set_source_visibility_global true st src v exclOpt).state.scenes,
      ¬ sc.sceneName ∈ exclOpt.getD [] → sc.fetchFails = false →
      ∀ it ∈ sc.items, it.sourceName = src → it.enabled = v) ∧
    ((∃ sc ∈ st.scenes, ¬ daemonExcluded dexcl sc.sceneName = true ∧ sc.fetchFails = true) →
      (set_source_visibility_globalD true st src v dexcl).ok = false) := by
  constructor
  · intro sc hsc hex hff
    rw [swSync_char st src v exclOpt hwf hsrc] at hsc
    have hsc' : sc ∈ st.scenes.map (syncScene src v (exclOpt.getD [])) := hsc
    obtain ⟨sc0, hsc0, rfl⟩ := List.mem_map.mp hsc'
    rw [syncScene_name] at hex
    rw [syncScene_ff] at hff
    apply syncScene_matching_enabled
    rintro (hc | hc)
    · exact hex hc
    · rw [hff] at hc; cases hc
  · exact fun hbad => daemonSync_abort st src v dexcl hwf hsrc hbad

/-- Witness for C1's amended statement: with scene B's fetch failing,
the daemon call reports failure. -/
theorem C1_partial_failure_amended_witness :
    (set_source_visibility_globalD true
      ⟨[⟨"A", false, [⟨"X", 1, false⟩]⟩, ⟨"B", true, [⟨"X", 2, false⟩]⟩,
        ⟨"C", false, [⟨"X", 3, false⟩]⟩]⟩ "X" true none).ok = false :=
  (C1_partial_failure_amended
      ⟨[⟨"A", false, [⟨"X", 1, false⟩]⟩, ⟨"B", true, [⟨"X", 2, false⟩]⟩,
        ⟨"C", false, [⟨"X", 3, false⟩]⟩]⟩ "X" true none none
      (by decide) (by decide)).2 (by decide)

/-- C1 counterexample: in the daemon variant, when scene B's item fetch
fails, the call aborts — scene A (already processed) is updated but the
matching item in scene C is left disabled and the call returns False,
so a broken scene does abort the synchronisation of the remaining
scenes. -/
theorem C1_counterexample_daemon_abort :
    set_source_visibility_globalD true
      ⟨[⟨"A", false, [⟨"X", 1, false⟩]⟩, ⟨"B", true, [⟨"X", 1, false⟩]⟩,
        ⟨"C", false, [⟨"X", 1, false⟩]⟩]⟩ "X" true none
      = ⟨false,
         ⟨[⟨"A", false, [⟨"X", 1, true⟩]⟩, ⟨"B", true, [⟨"X", 1, false⟩]⟩,
           ⟨"C", false, [⟨"X", 1, false⟩]⟩]⟩, 1, [⟨"A", 1, true⟩]⟩ := rfl

/-- C5 (amended): the synchronisation call returns a single boolean —
true exactly when at least one item was modified — rather than a
(scenes_modified, found) pair; the modified count is only tracked
internally and equals the number of set-enabled calls issued, and a
zero-found outcome produces the warning log and a False return, not an
error. -/
theorem C5_sync_return_amended (st : ObsState) (src : String) (v : Bool)
    (exclOpt : Option (List String)) (hwf : WellFormed st) (hsrc : ¬ src = "") :
    (set_source_visibility_global true st src v exclOpt).ok
      = decide (0 < (set_source_visibility_global true st src v exclOpt).modified) ∧
    (set_source_visibility_global true st src v exclOpt).modified
      = (set_source_visibility_global true st src v exclOpt).calls.length ∧
    ((set_source_visibility_global true st src v exclOpt).modified = 0 →
      (set_source_visibility_global true st src v exclOpt).warnedNotFound = true ∧
      (set_source_visibility_global true st src v exclOpt).ok = false) := by
  rw [swSync_char st src v exclOpt hwf hsrc]
  refine ⟨rfl, rfl, fun h => ?_⟩
  have h' : (st.scenes.flatMap (callsOfScene src v (exclOpt.getD []))).length = 0 := h
  exact ⟨by rw [h']; rfl, by rw [h']; rfl⟩

/-- Witness for C5's amended statement at a one-scene remote. -/
theorem C5_sync_return_amended_witness :
    (set_source_visibility_global true ⟨[⟨"A", false, [⟨"X", 1, false⟩]⟩]⟩
        "X" true none).ok
      = decide (0 < (set_source_visibility_global true
          ⟨[⟨"A", false, [⟨"X", 1, false⟩]⟩]⟩ "X" true none).modified) :=
  (C5_sync_return_amended ⟨[⟨"A", false, [⟨"X", 1, false⟩]⟩]⟩ "X" true none
    (by decide) (by decide)).1

/-- C5 counterexample: two calls whose modified counts differ (1 and 2)
return the very same value `true` — the Python return value is a bare
boolean and cannot be the claimed (scenes_modified, found) pair. -/
theorem C5_counterexample_bool_return :
    (set_source_visibility_global true ⟨[⟨"A", false, [⟨"X", 1, false⟩]⟩]⟩
      "X" true none).ok = true ∧
    (set_source_visibility_global true ⟨[⟨"A", false, [⟨"X", 1, false⟩]⟩]⟩
      "X" true none).modified = 1 ∧
    (set_source_visibility_global true
      ⟨[⟨"A", false, [⟨"X", 1, false⟩, ⟨"X", 2, false⟩]⟩]⟩ "X" true none).ok = true ∧
    (set_source_visibility_global true
      ⟨[⟨"A", false, [⟨"X", 1, false⟩, ⟨"X", 2, false⟩]⟩]⟩ "X" true none).modified = 2 :=
  ⟨rfl, rfl, rfl, rfl⟩

/-- C6: for every non-excluded scene and every item of its list whose
source name equals the target, exactly one set-enabled call carrying
the desired visibility is issued — the call list is precisely the
concatenation, in scene order, of one call per matching occurrence
(multiple occurrences in one scene each appear) — and the count equals
the number of such calls; this holds for both variants. -/
theorem C6_per_item_calls (st : ObsState) (src : String) (v : Bool)
    (exclOpt : Option (List String)) (dexcl : Option String)
    (hwf : WellFormed st) (hsrc : ¬ src = "") (hnf : NoFetchFailures st) :
    (set_source_visibility_global true st src v exclOpt).calls
      = st.scenes.flatMap (fun sc => if sc.sceneName ∈ exclOpt.getD [] then []
          else (sc.items.filter (fun it => it.sourceName = src)).map
            (fun it => EnableCall.mk sc.sceneName it.sceneItemId v)) ∧
    (set_source_visibility_global true st src v exclOpt).modified
      = (set_source_visibility_global true st src v exclOpt).calls.length ∧
    (set_source_visibility_globalD true st src v dexcl).calls
      = st.scenes.flatMap (fun sc => if sc.sceneName ∈ dexclList dexcl then []
          else (sc.items.filter (fun it => it.sourceName = src)).map
            (fun it => EnableCall.mk sc.sceneName it.sceneItemId v)) ∧
    (set_source_visibility_globalD true st src v dexcl).modified
      = (set_source_visibility_globalD true st src v dexcl).calls.length := by
  rw [swSync_char st src v exclOpt hwf hsrc, daemonSync_char st src v dexcl hwf hsrc hnf]
  refine ⟨?_, rfl, ?_, rfl⟩
  · apply List.flatMap_congr
    intro sc hsc
    have hf := hnf sc hsc
    unfold callsOfScene
    by_cases hex : sc.sceneName ∈ exclOpt.getD []
    · rw [if_pos (Or.inl hex), if_pos hex]
    · rw [if_neg (by rintro (hc | hc); exacts [hex hc, by rw [hf] at hc; cases hc]),
        if_neg hex]
  · apply List.flatMap_congr
    intro sc hsc
    have hf := hnf sc hsc
    unfold callsOfScene
    by_cases hex : sc.sceneName ∈ dexclList dexcl
    · rw [if_pos (Or.inl hex), if_pos hex]
    · rw [if_neg (by rintro (hc | hc); exacts [hex hc, by rw [hf] at hc; cases hc]),
        if_neg hex]

/-- Witness for C6 at a scene containing the target twice. -/
theorem C6_per_item_calls_witness :
    (set_source_visibility_global true
      ⟨[⟨"A", false, [⟨"X", 1, false⟩, ⟨"X", 2, true⟩]⟩]⟩ "X" true none).modified
      = (set_source_visibility_global true
        ⟨[⟨"A", false, [⟨"X", 1, false⟩, ⟨"X", 2, true⟩]⟩]⟩ "X" true none).calls.length :=
  (C6_per_item_calls ⟨[⟨"A", false, [⟨"X", 1, false⟩, ⟨"X", 2, true⟩]⟩]⟩
    "X" true none none (by decide) (by decide) (by decide)).2.1

/-- C7: the switcher's synchronisation is idempotent and convergent —
repeating a call with identical arguments leaves the state produced by
the first call unchanged, and after a call with desired visibility v
every matching item of every non-excluded scene has enabled = v
regardless of its starting value. -/
theorem C7_sync_idempotent_convergent (st : ObsState) (src : String) (v : Bool)
    (exclOpt : Option (List String)) (hwf : WellFormed st) (hsrc : ¬ src = "")
    (hnf : NoFetchFailures st) :
    (set_source_visibility_global true
        (set_source_visibility_global true st src v exclOpt).state src v exclOpt).state
      = (set_source_visibility_global true st src v exclOpt).state ∧
    (∀ sc ∈ (set_source_visibility_global true st src v exclOpt).state.scenes,
      ¬ sc.sceneName ∈ exclOpt.getD [] →
      ∀ it ∈ sc.items, it.sourceName = src → it.enabled = v) := by
  have h1 := swSync_char st src v exclOpt hwf hsrc
  have hwf2 : WellFormed (set_source_visibility_global true st src v exclOpt).state := by
    rw [h1]
    exact wf_map_syncScene hwf src v (exclOpt.getD [])
  have h2 := swSync_char (set_source_visibility_global true st src v exclOpt).state
    src v exclOpt hwf2 hsrc
  constructor
  · rw [h2, h1]
    show (⟨(st.scenes.map (syncScene src v (exclOpt.getD []))).map
        (syncScene src v (exclOpt.getD []))⟩ : ObsState)
      = ⟨st.scenes.map (syncScene src v (exclOpt.getD []))⟩
    rw [List.map_map]
    exact congrArg ObsState.mk (List.map_congr_left (fun sc _ => by
      rw [Function.comp_apply, syncScene_idem]))
  · intro sc hsc hex
    rw [h1] at hsc
    have hsc' : sc ∈ st.scenes.map (syncScene src v (exclOpt.getD [])) := hsc
    obtain ⟨sc0, hsc0, rfl⟩ := List.mem_map.mp hsc'
    rw [syncScene_name] at hex
    have hff := hnf sc0 hsc0
    apply syncScene_matching_enabled
    rintro (hc | hc)
    · exact hex hc
    · rw [hff] at hc; cases hc

/-- Witness for C7 at a one-scene remote. -/
theorem C7_sync_idempotent_convergent_witness :
    (set_source_visibility_global true
        (set_source_visibility_global true ⟨[⟨"A", false, [⟨"X", 1, false⟩]⟩]⟩
          "X" true none).state "X" true none).state
      = (set_source_visibility_global true ⟨[⟨"A", false, [⟨"X", 1, false⟩]⟩]⟩
          "X" true none).state :=
  (C7_sync_idempotent_convergent ⟨[⟨"A", false, [⟨"X", 1, false⟩]⟩]⟩ "X" true none
    (by decide) (by decide) (by decide)).1

/-- C10: a synchronisation call issues set-enabled calls only for items
whose source name equals the target, only in non-excluded scenes, and
always with the desired value; the scene list keeps its shape and every
item of an excluded scene, as well as every item with a different
source name, is left exactly as it was. -/
theorem C10_frame_effect (st : ObsState) (src : String) (v : Bool)
    (exclOpt : Option (List String)) (hwf : WellFormed st) (hsrc : ¬ src = "") :
    List.Forall₂ (fun sc sc' => sc'.sceneName = sc.sceneName ∧
        List.Forall₂ (fun it it' =>
          (sc.sceneName ∈ exclOpt.getD [] ∨ ¬ it.sourceName = src) → it' = it)
          sc.items sc'.items)
      st.scenes (set_source_visibility_global true st src v exclOpt).state.scenes ∧
    (∀ c ∈ (set_source_visibility_global true st src v exclOpt).calls,
      ¬ c.sceneName ∈ exclOpt.getD [] ∧ c.enabled = v ∧
      ∃ sc ∈ st.scenes, sc.sceneName = c.sceneName ∧
        ∃ it ∈ sc.items, it.sourceName = src ∧ it.sceneItemId = c.sceneItemId) := by
  rw [swSync_char st src v exclOpt hwf hsrc]
  constructor
  · show List.Forall₂ _ st.scenes (st.scenes.map (syncScene src v (exclOpt.getD [])))
    rw [List.forall₂_map_right_iff, List.forall₂_same]
    intro sc hsc
    refine ⟨syncScene_name src v _ sc, ?_⟩
    by_cases hc : sc.sceneName ∈ exclOpt.getD [] ∨ sc.fetchFails = true
    · have hid : syncScene src v (exclOpt.getD []) sc = sc := by
        unfold syncScene; rw [if_pos hc]
      rw [hid, List.forall₂_same]
      intro it _ _
      rfl
    · have hupd : syncScene src v (exclOpt.getD []) sc
          = { sc with items := updMatchItems src v sc.items } := by
        unfold syncScene; rw [if_neg hc]
      rw [hupd]
      show List.Forall₂ _ sc.items (List.map (updMatch src v) sc.items)
      rw [List.forall₂_map_right_iff, List.forall₂_same]
      intro it _ h
      rcases h with h | h
      · exact absurd h (fun hh => hc (Or.inl hh))
      · unfold updMatch
        rw [if_neg h]
  · intro c hcmem
    have hcmem' : c ∈ st.scenes.flatMap (callsOfScene src v (exclOpt.getD [])) := hcmem
    rw [List.mem_flatMap] at hcmem'
    obtain ⟨sc, hsc, hcc⟩ := hcmem'
    unfold callsOfScene at hcc
    by_cases hcond : sc.sceneName ∈ exclOpt.getD [] ∨ sc.fetchFails = true
    · rw [if_pos hcond] at hcc
      cases hcc
    · rw [if_neg hcond] at hcc
      obtain ⟨it, hitmem, rfl⟩ := List.mem_map.mp hcc
      have hitm := List.mem_filter.mp hitmem
      refine ⟨fun hmem => hcond (Or.inl hmem), rfl, sc, hsc, rfl, it, hitm.1, ?_, rfl⟩
      exact of_decide_eq_true hitm.2

/-- Witness for C10: the single call a two-scene remote with one
excluded scene produces lands in the non-excluded scene on a matching
item with the desired value. -/
theorem C10_frame_effect_witness :
    ¬ (⟨"A", 1, true⟩ : EnableCall).sceneName ∈
        (some ["B"] : Option (List String)).getD [] ∧
    (⟨"A", 1, true⟩ : EnableCall).enabled = true ∧
    ∃ sc ∈ (⟨[⟨"A", false, [⟨"X", 1, false⟩]⟩, ⟨"B", false, [⟨"X", 1, false⟩]⟩]⟩ :
        ObsState).scenes,
      sc.sceneName = (⟨"A", 1, true⟩ : EnableCall).sceneName ∧
      ∃ it ∈ sc.items, it.sourceName = "X" ∧
        it.sceneItemId = (⟨"A", 1, true⟩ : EnableCall).sceneItemId :=
  (C10_frame_effect
      ⟨[⟨"A", false, [⟨"X", 1, false⟩]⟩, ⟨"B", false, [⟨"X", 1, false⟩]⟩]⟩
      "X" true (some ["B"]) (by decide) (by decide)).2
    ⟨"A", 1, true⟩ (by decide)

end FsSource
